import Mathlib

/-
Shallow embedding of the I2C master-mode transaction engine in
src/src/Source_Files/i2c.c (fjmcde/I2C_Lab_6): the transaction descriptor,
the four interrupt-driven state-machine handlers, the transaction
initiator, and the bus-reset procedure, together with theorems checking
the natural-language specification against this code.
-/

namespace I2CLab

/-- Descriptor states of the transaction state machine. The enum itself is
declared in the missing header i2c.h; the five constructor names are the
ones the switch statements in i2c.c dispatch on (req_res = RequestResource,
command_tx = CommandTransmitted, data_req = DataRequested,
data_rx = DataReceiving, m_stop = StopPending). -/
inductive I2CState
  | req_res
  | command_tx
  | data_req
  | data_rx
  | m_stop
deriving DecidableEq

open I2CState

/-- Observable side effects of a handler: writes to the CMD register
(I2C_CMD_START, I2C_CMD_STOP, I2C_CMD_CONT, I2C_CMD_ACK, I2C_CMD_NACK),
writes to the TXDATA register, and the completion-path calls
(sleep_unblock_mode, add_scheduled_event, i2c_bus_reset). -/
inductive Action
  | cmdStart
  | cmdStop
  | cmdCont
  | cmdAck
  | cmdNack
  | tx (v : Nat)
  | sleepUnblock
  | scheduleEvent (cb : Nat)
  | busResetCall
deriving DecidableEq

/-- Modelled from the spec: shift amount placing the 7-bit slave address in
the upper bits of the read/write header byte (I2C_ADDR_RW_SHIFT in the
missing header i2c.h; i2c_tx_start writes the shift as a literal 1 and the
spec says the address is shifted left by one). -/
def I2C_ADDR_RW_SHIFT : Nat := 1

/-- Modelled from the spec: read-direction bit of the header byte
(SI7021_I2C_READ in the missing header i2c.h; the spec says the LSB of the
header is the read/write bit, read = 1 per the I2C convention). -/
def SI7021_I2C_READ : Nat := 1

/-- Modelled from the spec: write-direction bit of the header byte
(SI7021_I2C_WRITE in the missing header i2c.h; write = 0). -/
def SI7021_I2C_WRITE : Nat := 0

/-- Modelled from the spec: the "measure relative humidity, no hold master
mode" command byte sent to the slave (measure_RH_NHMM in the missing header
i2c.h; its concrete value is the Si7021 datasheet command 0xF5 and no claim
depends on it). -/
def measure_RH_NHMM : Nat := 0xF5

/-- Modelled from the spec: bits per byte, used to place a received byte at
bit position (bytes_remaining - 1) * 8 (MSBYTE_SHIFT in the missing header
i2c.h; the spec names the landing position (k-1)*8). -/
def MSBYTE_SHIFT : Nat := 8

/-- Modulus of a 32-bit unsigned counter: num_bytes is decremented with the
C postfix decrement, which wraps modulo 2^32. -/
def UINT32_MOD : Nat := 4294967296

/-- Transaction descriptor (I2C_SM_STRUCT, declared in the missing header
i2c.h). Fields are the ones i2c.c reads and writes: curr_state,
slave_addr, busy (modelled from the spec as a boolean, I2C_BUS_BUSY = true
and I2C_BUS_READY = false), num_bytes (32-bit counter, modelled as Nat
with explicit wrap on decrement), data (the caller-owned destination
buffer; modelled from the spec as an N-byte-wide buffer wide enough for
the payload, hence an unbounded Nat), and i2c_cb (the opaque callback
id). The hardware-register references I2Cn, txdata and rxdata are
represented by the Action trace and the received-byte argument of the
RXDATAV handler. -/
structure I2CSm where
  curr_state : I2CState
  slave_addr : Nat
  busy : Bool
  num_bytes : Nat
  data : Nat
  i2c_cb : Nat
deriving DecidableEq

/-- Result of one handler invocation: updated descriptor, the hardware
actions issued in order, and whether EFM_ASSERT(false) was reached
(a fatal assertion trap). -/
structure HandlerResult where
  sm : I2CSm
  actions : List Action
  fatal : Bool
deriving DecidableEq

/-- i2c_tx_start from i2c.c: issue I2C_CMD_START, then transmit the header
byte ((slave_addr << 1) | rw). -/
def i2c_tx_start (sm : I2CSm) (rw : Nat) : List Action :=
  [Action.cmdStart, Action.tx ((sm.slave_addr <<< 1) ||| rw)]

/-- i2cn_ack_sm from i2c.c: ACK handler. req_res: transmit the measure
command and advance to command_tx. command_tx: issue a repeated START,
transmit (slave_addr << I2C_ADDR_RW_SHIFT) | SI7021_I2C_READ, advance to
data_req. data_req: advance to data_rx. Any other state: EFM_ASSERT(false). -/
def i2cn_ack_sm (sm : I2CSm) : HandlerResult :=
  match sm.curr_state with
  | req_res =>
      ⟨{ sm with curr_state := command_tx }, [Action.tx measure_RH_NHMM], false⟩
  | command_tx =>
      ⟨{ sm with curr_state := data_req },
        [Action.cmdStart,
         Action.tx ((sm.slave_addr <<< I2C_ADDR_RW_SHIFT) ||| SI7021_I2C_READ)],
        false⟩
  | data_req =>
      ⟨{ sm with curr_state := data_rx }, [], false⟩
  | _ => ⟨sm, [], true⟩

/-- i2cn_nack_sm from i2c.c: NACK handler. req_res: issue START and
retransmit (slave_addr | SI7021_I2C_WRITE) with no left shift, exactly as
the source writes it. command_tx: issue I2C_CMD_CONT and retransmit the
measure command. data_req: issue START and retransmit
(slave_addr | SI7021_I2C_READ), again with no shift. The state is never
changed. Any other state: EFM_ASSERT(false). -/
def i2cn_nack_sm (sm : I2CSm) : HandlerResult :=
  match sm.curr_state with
  | req_res =>
      ⟨sm, [Action.cmdStart, Action.tx (sm.slave_addr ||| SI7021_I2C_WRITE)], false⟩
  | command_tx =>
      ⟨sm, [Action.cmdCont, Action.tx measure_RH_NHMM], false⟩
  | data_req =>
      ⟨sm, [Action.cmdStart, Action.tx (sm.slave_addr ||| SI7021_I2C_READ)], false⟩
  | _ => ⟨sm, [], true⟩

/-- i2cn_rxdata_sm from i2c.c: RXDATAV handler, given the byte read from
the RXDATA register. In data_rx: decrement num_bytes (32-bit wrap), OR
the received byte shifted by MSBYTE_SHIFT * num_bytes (the decremented
value) into the destination buffer, then either issue I2C_CMD_ACK when
bytes remain, or issue I2C_CMD_NACK, move to m_stop and issue
I2C_CMD_STOP when the count reached zero. In every other state the
switch default is an empty break: descriptor untouched, no command. -/
def i2cn_rxdata_sm (rx : Nat) (sm : I2CSm) : HandlerResult :=
  match sm.curr_state with
  | data_rx =>
      let nb := (sm.num_bytes + (UINT32_MOD - 1)) % UINT32_MOD
      let d := sm.data ||| (rx <<< (MSBYTE_SHIFT * nb))
      if 0 < nb then
        ⟨{ sm with num_bytes := nb, data := d }, [Action.cmdAck], false⟩
      else
        ⟨{ sm with curr_state := m_stop, num_bytes := nb, data := d },
          [Action.cmdNack, Action.cmdStop], false⟩
  | _ => ⟨sm, [], false⟩

/-- i2cn_mstop_sm from i2c.c: MSTOP handler. In m_stop: clear busy
(I2C_BUS_READY), unblock the energy mode, hand the callback to the
scheduler, and call i2c_bus_reset. Any other state: EFM_ASSERT(false). -/
def i2cn_mstop_sm (sm : I2CSm) : HandlerResult :=
  match sm.curr_state with
  | m_stop =>
      ⟨{ sm with busy := false },
        [Action.sleepUnblock, Action.scheduleEvent sm.i2c_cb, Action.busResetCall],
        false⟩
  | _ => ⟨sm, [], true⟩

/-- Interrupt events dispatched by I2C0_IRQHandler / I2C1_IRQHandler:
IF bits ACK, NACK, RXDATAV (carrying the received byte) and MSTOP. -/
inductive I2CEvent
  | ack
  | nack
  | rxdatav (b : Nat)
  | mstop
deriving DecidableEq

/-- Dispatch of one interrupt event to its handler, as done by the IRQ
handlers in i2c.c. -/
def i2c_step : I2CEvent → I2CSm → HandlerResult
  | I2CEvent.ack, sm => i2cn_ack_sm sm
  | I2CEvent.nack, sm => i2cn_nack_sm sm
  | I2CEvent.rxdatav b, sm => i2cn_rxdata_sm b sm
  | I2CEvent.mstop, sm => i2cn_mstop_sm sm

/-- Result of running a sequence of interrupt events: final descriptor,
concatenated action trace, and whether a fatal assertion was reached
(after which no further event is processed, since EFM_ASSERT halts). -/
structure RunResult where
  sm : I2CSm
  actions : List Action
  fatal : Bool
deriving DecidableEq

/-- Run a list of interrupt events through the state machine. -/
def i2c_run : List I2CEvent → I2CSm → RunResult
  | [], sm => ⟨sm, [], false⟩
  | e :: es, sm =>
      let r := i2c_step e sm
      if r.fatal then ⟨r.sm, r.actions, true⟩
      else
        let rest := i2c_run es r.sm
        ⟨rest.sm, r.actions ++ rest.actions, rest.fatal⟩

/-- Possible outcomes of i2c_init_sm for one peripheral branch. spins:
the while loop on the live descriptor busy flag never exits (the loop body
is empty and it runs inside the critical section with interrupts masked,
so no handler can clear the flag). fatalAssert: the EFM_ASSERT on the
hardware STATE register fired because the peripheral was not idle.
started: the caller descriptor was copied into the live slot. -/
inductive InitOutcome
  | spins
  | fatalAssert
  | started (live : I2CSm)
deriving DecidableEq

/-- i2c_init_sm from i2c.c, one peripheral branch, as a function of the
caller descriptor, the current live descriptor (the static i2cN_sm), and
whether the hardware STATE register reads idle. The source first sets the
caller descriptor busy, then spins on the live descriptor busy flag
(interrupts are already masked, so a set flag never clears: spins), then
asserts the hardware is idle (otherwise fatalAssert), then copies the
caller descriptor into the live slot. -/
def i2c_init_sm (caller live : I2CSm) (hwIdle : Bool) : InitOutcome :=
  let armed := { caller with busy := true }
  if live.busy then InitOutcome.spins
  else if hwIdle then InitOutcome.started armed
  else InitOutcome.fatalAssert

/-- The straight-line steps of i2c_init_sm in source order (i2c.c lines
200 to 247, the I2C0 branch): sleep_block_mode, CORE_ENTER_CRITICAL,
set busy on the caller descriptor, write IEN, the while loop on the live
busy flag, EFM_ASSERT on the STATE register, copy into the live slot,
NVIC_EnableIRQ, timer_delay, CORE_EXIT_CRITICAL. -/
inductive InitStep
  | sleepBlock
  | enterCritical
  | setBusyFlag
  | enableIEN
  | waitBusyFlag
  | assertIdle
  | copyDescriptor
  | nvicEnable
  | timerDelay
  | exitCritical
deriving DecidableEq

/-- The order of operations of i2c_init_sm as written in the source. -/
def i2c_init_sm_steps : List InitStep :=
  [InitStep.sleepBlock, InitStep.enterCritical, InitStep.setBusyFlag,
   InitStep.enableIEN, InitStep.waitBusyFlag, InitStep.assertIdle,
   InitStep.copyDescriptor, InitStep.nvicEnable, InitStep.timerDelay,
   InitStep.exitCritical]

/-- Modelled from the vendor device header (not in src): reset value of
the I2C IEN register, 0. The source itself corroborates the value: i2c.c
line 64 writes I2C_IEN_RESETVALUE to IEN under the comment "disable all
interrupts". -/
def I2C_IEN_RESETVALUE : Nat := 0

/-- Modelled from the vendor device header (not in src): write-1-to-clear
mask of the IFC register, covering every clearable interrupt flag; the
status flags TXBL (bit 4) and RXDATAV (bit 5) are not clearable. -/
def I2C_IFC_MASK : Nat := 0x0003FFCF

/-- Modelled from the vendor device header (not in src): the MSTOP
interrupt flag bit. -/
def I2C_IF_MSTOP : Nat := 0x200

/-- All-ones mask of a 32-bit register. -/
def MASK32 : Nat := 0xFFFFFFFF

/-- Effect on the IF register of writing mask to the IFC register: the
masked flags are cleared. -/
def clearFlags (ifv mask : Nat) : Nat := ifv &&& (MASK32 ^^^ mask)

/-- The condition checked by the EFM_ASSERT after the first IFC clear in
i2c_bus_reset, exactly as the source writes it:
EFM_ASSERT(!(i2c->IF & I2C_IEN_RESETVALUE)). -/
def busResetAssertPasses (ifv : Nat) : Bool := (ifv &&& I2C_IEN_RESETVALUE) == 0

/-- Hardware-register state of one I2C peripheral as far as i2c_bus_reset
reads and writes it: the interrupt-enable register IEN and the
interrupt-flag register IF. CMD is write-only and its writes are not
observed by any claim about this procedure. -/
structure I2CRegs where
  IEN : Nat
  IF : Nat
deriving DecidableEq

/-- Result of i2c_bus_reset: final register state, the IF value at the
moment the defensive EFM_ASSERT runs, whether that assertion passed, and
the IEN value held during the body of the procedure. -/
structure BusResetResult where
  regs : I2CRegs
  ifAtAssert : Nat
  assertPassed : Bool
  ienDuring : Nat
deriving DecidableEq

/-- i2c_bus_reset from i2c.c. Steps in source order: CMD ABORT; save IEN;
IEN := I2C_IEN_RESETVALUE; IFC := I2C_IFC_MASK; the EFM_ASSERT on IF;
CMD CLEARTX; IFC MSTOP; CMD START|STOP, after which the hardware raises
MSTOP together with any spurious flags (the spec calls this wait bounded
and hardware-guaranteed, so the model covers exactly the terminating
calls: the while loop on IF MSTOP exits); IFC := I2C_IFC_MASK; CMD ABORT;
restore the saved IEN. The spurious argument models the flags the
hardware raises in response to the START+STOP cycle. -/
def i2c_bus_reset (regs : I2CRegs) (spurious : Nat) : BusResetResult :=
  let ienState := regs.IEN
  let if1 := clearFlags regs.IF I2C_IFC_MASK
  let pass := busResetAssertPasses if1
  let if2 := clearFlags if1 I2C_IF_MSTOP
  let if3 := if2 ||| I2C_IF_MSTOP ||| (spurious &&& MASK32)
  let if4 := clearFlags if3 I2C_IFC_MASK
  { regs := { IEN := ienState, IF := if4 },
    ifAtAssert := if1,
    assertPassed := pass,
    ienDuring := I2C_IEN_RESETVALUE }

/-- Descriptor after each successive RXDATAV event of a run, in order. -/
def rxStates : List Nat → I2CSm → List I2CSm
  | [], _ => []
  | b :: bs, sm =>
      let r := i2cn_rxdata_sm b sm
      r.sm :: rxStates bs r.sm

/-- Action list issued by each successive RXDATAV event of a run. -/
def rxActs : List Nat → I2CSm → List (List Action)
  | [], _ => []
  | b :: bs, sm =>
      let r := i2cn_rxdata_sm b sm
      r.actions :: rxActs bs r.sm

/-- Descriptor after a whole run of RXDATAV events. -/
def rxFinal : List Nat → I2CSm → I2CSm
  | [], sm => sm
  | b :: bs, sm => rxFinal bs (i2cn_rxdata_sm b sm).sm

/-- The strictly decreasing counter sequence n-1, n-2, ..., 0. -/
def countdown : Nat → List Nat
  | 0 => []
  | n + 1 => n :: countdown n

/-- Written from the spec for comparison with the code: the
most-significant-byte-first assembly of a payload, the first received
byte landing at bit position 8 * (number of later bytes). -/
def msbPayload : List Nat → Nat
  | [] => 0
  | b :: bs => (b <<< (8 * bs.length)) ||| msbPayload bs

/-- A sample caller descriptor with busy set (state RequestResource,
Si7021 slave address 0x40, two payload bytes expected, zeroed buffer,
callback id 5). -/
def descBusy : I2CSm := ⟨I2CState.req_res, 0x40, true, 2, 0, 5⟩

/-- The same descriptor with busy clear. -/
def descFree : I2CSm := ⟨I2CState.req_res, 0x40, false, 2, 0, 5⟩

/-- A sample descriptor in the m_stop state. -/
def mstopDesc : I2CSm := ⟨I2CState.m_stop, 0x40, true, 2, 0, 5⟩

/-- A sample descriptor receiving a two-byte payload into a zeroed
buffer. -/
def rxDesc : I2CSm := ⟨I2CState.data_rx, 0x40, true, 2, 0, 5⟩

/-- C1: for two consecutive begin_transaction calls on one peripheral, the
second call copies its descriptor into the live slot only after observing
busy == false on the live descriptor: if the live descriptor is still
busy, i2c_init_sm spins forever and the copy never happens, and whenever
the copy does happen the live busy flag was false and the new live
descriptor is marked busy, so at most one live transaction exists per
peripheral. -/
theorem c1_mutual_exclusion (caller live : I2CSm) (hwIdle : Bool) :
    (live.busy = true → i2c_init_sm caller live hwIdle = InitOutcome.spins) ∧
    (∀ armed, i2c_init_sm caller live hwIdle = InitOutcome.started armed →
      live.busy = false ∧ armed.busy = true) := by
  constructor
  · intro h
    simp [i2c_init_sm, h]
  · intro armed h
    by_cases hb : live.busy
    · simp [i2c_init_sm, hb] at h
    · refine ⟨by simpa using hb, ?_⟩
      by_cases hi : hwIdle
      · simp [i2c_init_sm, hb, hi] at h
        rw [← h]
      · simp [i2c_init_sm, hb, hi] at h

/-- Witness for C1 at concrete descriptors: a busy live slot makes the
initiator spin without copying, and a started call has observed busy
false and arms the new live descriptor. -/
theorem c1_mutual_exclusion_witness :
    i2c_init_sm descFree descBusy true = InitOutcome.spins ∧
    (descFree.busy = false ∧ descBusy.busy = true) :=
  ⟨(c1_mutual_exclusion descFree descBusy true).1 rfl,
   (c1_mutual_exclusion descFree descFree true).2 descBusy (by decide)⟩

/-- C2: evaluation of the NACK handler at slave address 0x40 in state
RequestResource. The state is left unchanged (the retry part of the claim
holds), but the retransmitted header byte is slave_addr | write_bit =
0x40, while the original transmission built by i2c_tx_start is
(slave_addr << 1) | write_bit = 0x80: the missing left shift makes the
retried header a different byte than the one the claim (and the code's
own comment) says is re-sent. -/
theorem c2_nack_header_divergence :
    (i2cn_nack_sm descBusy).sm.curr_state = I2CState.req_res ∧
    (i2cn_nack_sm descBusy).actions = [Action.cmdStart, Action.tx 0x40] ∧
    i2c_tx_start descBusy SI7021_I2C_WRITE = [Action.cmdStart, Action.tx 0x80] ∧
    (i2cn_nack_sm descBusy).actions ≠ i2c_tx_start descBusy SI7021_I2C_WRITE := by
  decide

/-- C3: in the source order of i2c_init_sm, the busy-wait on the live
descriptor sits strictly between CORE_ENTER_CRITICAL and
CORE_EXIT_CRITICAL: the initiator spins on the busy flag while interrupts
are suppressed, contrary to the claim that the wait happens with
interrupts enabled before the critical section. -/
theorem c3_wait_inside_critical_section :
    i2c_init_sm_steps.indexOf InitStep.enterCritical <
      i2c_init_sm_steps.indexOf InitStep.waitBusyFlag ∧
    i2c_init_sm_steps.indexOf InitStep.waitBusyFlag <
      i2c_init_sm_steps.indexOf InitStep.exitCritical := by
  decide

/-- C6 counterexample: running the claimed event sequence ACK, ACK,
byte(0xAB), byte(0x12), stop-detected from the start of a transaction
with bytes_remaining = 2 does not complete: after only two ACKs the
descriptor is still in data_req, both byte events are no-ops there, and
the stop-detected event trips the fatal assertion; the buffer stays 0,
busy stays true, and no callback or energy-mode release happens. -/
theorem c6_two_acks_not_completing :
    (i2c_run [I2CEvent.ack, I2CEvent.ack, I2CEvent.rxdatav 0xAB,
      I2CEvent.rxdatav 0x12, I2CEvent.mstop] descBusy).fatal = true ∧
    (i2c_run [I2CEvent.ack, I2CEvent.ack, I2CEvent.rxdatav 0xAB,
      I2CEvent.rxdatav 0x12, I2CEvent.mstop] descBusy).sm.data = 0 ∧
    (i2c_run [I2CEvent.ack, I2CEvent.ack, I2CEvent.rxdatav 0xAB,
      I2CEvent.rxdatav 0x12, I2CEvent.mstop] descBusy).sm.busy = true ∧
    (i2c_run [I2CEvent.ack, I2CEvent.ack, I2CEvent.rxdatav 0xAB,
      I2CEvent.rxdatav 0x12, I2CEvent.mstop] descBusy).actions.count
        (Action.scheduleEvent 5) = 0 ∧
    (i2c_run [I2CEvent.ack, I2CEvent.ack, I2CEvent.rxdatav 0xAB,
      I2CEvent.rxdatav 0x12, I2CEvent.mstop] descBusy).actions.count
        Action.sleepUnblock = 0 := by
  decide

/-- C6 amended: with the third ACK that the state table requires to move
from DataRequested into DataReceiving, the sequence ACK, ACK, ACK,
byte(0xAB), byte(0x12), stop-detected from a transaction with
bytes_remaining = 2 and a zeroed destination completes with destination
buffer 0xAB12, busy false, exactly one callback handed to the scheduler
and exactly one energy-mode release, and no fatal assertion. -/
theorem c6_three_acks_complete :
    (i2c_run [I2CEvent.ack, I2CEvent.ack, I2CEvent.ack, I2CEvent.rxdatav 0xAB,
      I2CEvent.rxdatav 0x12, I2CEvent.mstop] descBusy).fatal = false ∧
    (i2c_run [I2CEvent.ack, I2CEvent.ack, I2CEvent.ack, I2CEvent.rxdatav 0xAB,
      I2CEvent.rxdatav 0x12, I2CEvent.mstop] descBusy).sm.data = 0xAB12 ∧
    (i2c_run [I2CEvent.ack, I2CEvent.ack, I2CEvent.ack, I2CEvent.rxdatav 0xAB,
      I2CEvent.rxdatav 0x12, I2CEvent.mstop] descBusy).sm.busy = false ∧
    (i2c_run [I2CEvent.ack, I2CEvent.ack, I2CEvent.ack, I2CEvent.rxdatav 0xAB,
      I2CEvent.rxdatav 0x12, I2CEvent.mstop] descBusy).actions.count
        (Action.scheduleEvent 5) = 1 ∧
    (i2c_run [I2CEvent.ack, I2CEvent.ack, I2CEvent.ack, I2CEvent.rxdatav 0xAB,
      I2CEvent.rxdatav 0x12, I2CEvent.mstop] descBusy).actions.count
        Action.sleepUnblock = 1 := by
  decide

/-- C7: every terminating call of i2c_bus_reset restores the IEN register
to its value before the call (the saved mask is written back at the end),
even though the body holds IEN at the all-disabled reset value. -/
theorem c7_bus_reset_preserves_ien (regs : I2CRegs) (spurious : Nat) :
    (i2c_bus_reset regs spurious).regs.IEN = regs.IEN ∧
    (i2c_bus_reset regs spurious).ienDuring = I2C_IEN_RESETVALUE :=
  ⟨rfl, rfl⟩

/-- C8: the defensive assertion after the interrupt-flag clear in
i2c_bus_reset masks IF with I2C_IEN_RESETVALUE, which is 0, so it passes
for every IF value and execution past it guarantees nothing: at the
concrete input IF = 0x10 (the non-clearable TXBL status flag), the flag
is still set when the assertion runs and the assertion still passes. -/
theorem c8_assert_vacuous :
    (∀ ifv : Nat, busResetAssertPasses ifv = true) ∧
    (i2c_bus_reset ⟨0, 0x10⟩ 0).ifAtAssert = 0x10 ∧
    (i2c_bus_reset ⟨0, 0x10⟩ 0).ifAtAssert ≠ 0 ∧
    (i2c_bus_reset ⟨0, 0x10⟩ 0).assertPassed = true := by
  refine ⟨fun ifv => ?_, by decide, by decide, by decide⟩
  simp [busResetAssertPasses, I2C_IEN_RESETVALUE, Nat.and_zero]

/-- C9: an event delivered in a state its handler does not list is fatal
(EFM_ASSERT(false)) for the ACK, NACK and stop-detected handlers, while
the byte-received handler outside DataReceiving leaves the descriptor
untouched, issues no command and is not fatal. -/
theorem c9_unexpected_events (sm : I2CSm) (b : Nat) :
    ((sm.curr_state = I2CState.data_rx ∨ sm.curr_state = I2CState.m_stop) →
      (i2cn_ack_sm sm).fatal = true) ∧
    ((sm.curr_state = I2CState.data_rx ∨ sm.curr_state = I2CState.m_stop) →
      (i2cn_nack_sm sm).fatal = true) ∧
    (sm.curr_state ≠ I2CState.m_stop → (i2cn_mstop_sm sm).fatal = true) ∧
    (sm.curr_state ≠ I2CState.data_rx →
      i2cn_rxdata_sm b sm = ⟨sm, [], false⟩) := by
  obtain ⟨st, a, bu, n, d, cb⟩ := sm
  cases st <;>
    simp [i2cn_ack_sm, i2cn_nack_sm, i2cn_mstop_sm, i2cn_rxdata_sm]

/-- Witness for C9 at concrete descriptors: ACK and NACK in m_stop are
fatal, stop-detected in req_res is fatal, and a received byte in m_stop
is a complete no-op. -/
theorem c9_unexpected_events_witness :
    (i2cn_ack_sm mstopDesc).fatal = true ∧
    (i2cn_nack_sm mstopDesc).fatal = true ∧
    (i2cn_mstop_sm descBusy).fatal = true ∧
    i2cn_rxdata_sm 0 mstopDesc = ⟨mstopDesc, [], false⟩ :=
  ⟨(c9_unexpected_events mstopDesc 0).1 (Or.inr rfl),
   (c9_unexpected_events mstopDesc 0).2.1 (Or.inr rfl),
   (c9_unexpected_events descBusy 0).2.2.1 (by decide),
   (c9_unexpected_events mstopDesc 0).2.2.2 (by decide)⟩

/-- The 32-bit postfix decrement of a positive in-range counter is plain
subtraction by one. -/
lemma uint32_decrement (k : Nat) (h1 : 1 ≤ k) (hw : k < UINT32_MOD) :
    (k + (UINT32_MOD - 1)) % UINT32_MOD = k - 1 := by
  unfold UINT32_MOD at *
  omega

/-- One byte-received event in data_rx with a positive in-range counter:
the counter drops by one, the byte is OR-ed in at bit position
8 * (old counter - 1), and the command issued is ACK while bytes remain
or NACK then STOP (with the move to m_stop) when the counter hits zero. -/
lemma rx_step_data_rx (b : Nat) (sm : I2CSm)
    (hst : sm.curr_state = I2CState.data_rx)
    (h1 : 1 ≤ sm.num_bytes) (hw : sm.num_bytes < UINT32_MOD) :
    i2cn_rxdata_sm b sm =
      if 1 < sm.num_bytes then
        ⟨{ sm with
            num_bytes := sm.num_bytes - 1,
            data := sm.data ||| (b <<< (8 * (sm.num_bytes - 1))) },
          [Action.cmdAck], false⟩
      else
        ⟨{ sm with
            curr_state := I2CState.m_stop, num_bytes := 0,
            data := sm.data ||| (b <<< (8 * (sm.num_bytes - 1))) },
          [Action.cmdNack, Action.cmdStop], false⟩ := by
  have hdec := uint32_decrement sm.num_bytes h1 hw
  simp only [i2cn_rxdata_sm, hst, hdec, MSBYTE_SHIFT]
  by_cases h : 1 < sm.num_bytes
  · rw [if_pos (by omega), if_pos h]
  · rw [if_neg (by omega), if_neg h]
    have hz : sm.num_bytes - 1 = 0 := by omega
    rw [hz]

/-- One-step unfolding of rxStates on a cons. -/
lemma rxStates_cons (b : Nat) (bs : List Nat) (sm : I2CSm) :
    rxStates (b :: bs) sm =
      (i2cn_rxdata_sm b sm).sm :: rxStates bs (i2cn_rxdata_sm b sm).sm := rfl

/-- One-step unfolding of rxActs on a cons. -/
lemma rxActs_cons (b : Nat) (bs : List Nat) (sm : I2CSm) :
    rxActs (b :: bs) sm =
      (i2cn_rxdata_sm b sm).actions :: rxActs bs (i2cn_rxdata_sm b sm).sm := rfl

/-- One-step unfolding of rxFinal on a cons. -/
lemma rxFinal_cons (b : Nat) (bs : List Nat) (sm : I2CSm) :
    rxFinal (b :: bs) sm = rxFinal bs (i2cn_rxdata_sm b sm).sm := rfl

/-- A complete receive run: starting in data_rx with the counter equal to
the number of bytes to receive, the counter values after the successive
events are the strictly decreasing sequence n-1, ..., 0, every event but
the last issues ACK and the last issues NACK then STOP, and the final
descriptor is in m_stop with counter zero, the buffer OR-ed with the
MSB-first payload, and busy untouched. -/
lemma rxRun_all (bytes : List Nat) :
    ∀ sm : I2CSm, sm.curr_state = I2CState.data_rx →
      sm.num_bytes = bytes.length → bytes.length < UINT32_MOD →
      1 ≤ bytes.length →
      ((rxStates bytes sm).map I2CSm.num_bytes = countdown bytes.length ∧
       rxActs bytes sm = List.replicate (bytes.length - 1) [Action.cmdAck] ++
           [[Action.cmdNack, Action.cmdStop]] ∧
       (rxFinal bytes sm).curr_state = I2CState.m_stop ∧
       (rxFinal bytes sm).num_bytes = 0 ∧
       (rxFinal bytes sm).data = sm.data ||| msbPayload bytes ∧
       (rxFinal bytes sm).busy = sm.busy) := by
  induction bytes with
  | nil =>
    intro sm _ _ _ hpos
    simp at hpos
  | cons b bs ih =>
    intro sm hst hn hw hpos
    have hk : sm.num_bytes = bs.length + 1 := by simpa using hn
    have h1 : 1 ≤ sm.num_bytes := by omega
    have hw2 : sm.num_bytes < UINT32_MOD := by
      rw [hk]
      simpa using hw
    have hstep := rx_step_data_rx b sm hst h1 hw2
    cases bs with
    | nil =>
      have hone : sm.num_bytes = 1 := by simpa using hk
      rw [if_neg (by omega)] at hstep
      simp [rxStates, rxActs, rxFinal, hstep, countdown, msbPayload, hone]
    | cons b2 bs2 =>
      have hgt : 1 < sm.num_bytes := by
        rw [hk]
        simp
      rw [if_pos hgt] at hstep
      have hbs : sm.num_bytes - 1 = bs2.length + 1 := by
        rw [hk]
        simp
      set sm2 : I2CSm := { sm with
          num_bytes := sm.num_bytes - 1,
          data := sm.data ||| (b <<< (8 * (sm.num_bytes - 1))) } with hsm2
      obtain ⟨ihc, iha, ihs, ihn, ihd, ihb⟩ :=
        ih sm2 (by rw [hsm2]; exact hst)
          (by rw [hsm2]; simpa using hbs)
          (by simp only [List.length_cons] at hw ⊢; omega)
          (by simp)
      refine ⟨?_, ?_, ?_, ?_, ?_, ?_⟩
      · rw [rxStates_cons, hstep]
        dsimp only
        rw [List.map_cons]
        simp only [List.length_cons] at ihc ⊢
        rw [countdown]
        congr 1
      · rw [rxActs_cons, hstep]
        dsimp only
        simp only [List.length_cons] at iha ⊢
        rw [iha, Nat.add_sub_cancel, Nat.add_sub_cancel, List.replicate_succ]
        simp
      · rw [rxFinal_cons, hstep]
        dsimp only
        exact ihs
      · rw [rxFinal_cons, hstep]
        dsimp only
        exact ihn
      · rw [rxFinal_cons, hstep]
        dsimp only
        rw [ihd]
        conv_rhs => rw [msbPayload]
        rw [hsm2]
        dsimp only
        rw [Nat.or_assoc, hbs]
        simp
      · rw [rxFinal_cons, hstep]
        dsimp only
        rw [ihb, hsm2]

/-- The sequence n, n-1, ..., 0 is strictly decreasing. -/
lemma countdown_chain (n : Nat) :
    List.Chain' (fun a c => c < a) (n :: countdown n) := by
  induction n with
  | zero => simp [countdown]
  | succ k ih =>
    rw [countdown]
    exact List.chain'_cons.mpr ⟨Nat.lt_succ_self k, ih⟩

/-- For positive n the sequence n-1, ..., 0 contains zero exactly once. -/
lemma countdown_count_zero (n : Nat) (h : 1 ≤ n) :
    (countdown n).count 0 = 1 := by
  induction n with
  | zero => omega
  | succ k ih =>
    cases k with
    | zero => rfl
    | succ m =>
      rw [countdown, List.count_cons]
      have hm : (countdown (m + 1)).count 0 = 1 := ih (by omega)
      simp [hm]

/-- The last element of a list extended with one element. -/
lemma getLast?_append_one {α : Type} (l : List α) (a : α) :
    (l ++ [a]).getLast? = some a := by
  induction l with
  | nil => rfl
  | cons x xs ih =>
    obtain ⟨y, ys, hys⟩ : ∃ y ys, xs ++ [a] = y :: ys := by
      cases xs <;> exact ⟨_, _, rfl⟩
    rw [List.cons_append, hys, List.getLast?_cons_cons, ← hys, ih]

/-- C4: a byte received in DataReceiving when bytes_remaining = k (with
k at least 1 and in 32-bit range) is stored into the destination buffer
at bit position (k-1)*8 from the low end, and the counter becomes k-1:
the payload is populated most-significant-byte first. -/
theorem c4_msb_first_store (b : Nat) (sm : I2CSm)
    (hst : sm.curr_state = I2CState.data_rx)
    (h1 : 1 ≤ sm.num_bytes) (hw : sm.num_bytes < UINT32_MOD) :
    (i2cn_rxdata_sm b sm).sm.data =
      sm.data ||| (b <<< ((sm.num_bytes - 1) * 8)) ∧
    (i2cn_rxdata_sm b sm).sm.num_bytes = sm.num_bytes - 1 := by
  by_cases h : 1 < sm.num_bytes
  · rw [rx_step_data_rx b sm hst h1 hw, if_pos h]
    exact ⟨by dsimp only; rw [Nat.mul_comm], rfl⟩
  · rw [rx_step_data_rx b sm hst h1 hw, if_neg h]
    refine ⟨by dsimp only; rw [Nat.mul_comm], ?_⟩
    dsimp only
    omega

/-- Witness for C4: with bytes_remaining = 2 and a zeroed buffer, the
byte 0xAB lands at bit position 8 and the counter becomes 1. -/
theorem c4_msb_first_store_witness :
    (i2cn_rxdata_sm 0xAB rxDesc).sm.data =
      rxDesc.data ||| (0xAB <<< ((rxDesc.num_bytes - 1) * 8)) ∧
    (i2cn_rxdata_sm 0xAB rxDesc).sm.num_bytes = rxDesc.num_bytes - 1 :=
  c4_msb_first_store 0xAB rxDesc rfl (by decide) (by decide)

/-- C5: over a receive run that starts in DataReceiving with the counter
equal to the number of byte-received events, bytes_remaining is strictly
decreasing across those events, reaches zero exactly once, the event that
takes it to zero issues exactly the NACK command followed by the STOP
command, and the descriptor moves to m_stop. Non-negativity holds by the
counter being a natural number in the model (an unsigned register in the
source). -/
theorem c5_counter_run (bytes : List Nat) (sm : I2CSm)
    (hst : sm.curr_state = I2CState.data_rx)
    (hn : sm.num_bytes = bytes.length)
    (hw : bytes.length < UINT32_MOD)
    (hpos : 1 ≤ bytes.length) :
    List.Chain' (fun a c => c < a)
      (sm.num_bytes :: (rxStates bytes sm).map I2CSm.num_bytes) ∧
    ((rxStates bytes sm).map I2CSm.num_bytes).count 0 = 1 ∧
    (rxActs bytes sm).getLast? = some [Action.cmdNack, Action.cmdStop] ∧
    (rxFinal bytes sm).curr_state = I2CState.m_stop := by
  obtain ⟨hc, ha, hs, _, _, _⟩ := rxRun_all bytes sm hst hn hw hpos
  refine ⟨?_, ?_, ?_, hs⟩
  · rw [hc, hn]
    exact countdown_chain bytes.length
  · rw [hc]
    exact countdown_count_zero bytes.length hpos
  · rw [ha]
    exact getLast?_append_one _ _

/-- Witness for C5 on the concrete two-byte run 0xAB, 0x12. -/
theorem c5_counter_run_witness :
    List.Chain' (fun a c => c < a)
      (rxDesc.num_bytes :: (rxStates [0xAB, 0x12] rxDesc).map I2CSm.num_bytes) ∧
    ((rxStates [0xAB, 0x12] rxDesc).map I2CSm.num_bytes).count 0 = 1 ∧
    (rxActs [0xAB, 0x12] rxDesc).getLast? =
      some [Action.cmdNack, Action.cmdStop] ∧
    (rxFinal [0xAB, 0x12] rxDesc).curr_state = I2CState.m_stop :=
  c5_counter_run [0xAB, 0x12] rxDesc rfl rfl (by decide) (by decide)

/-- C10: the byte-received handler only ORs into the caller-owned
destination buffer, so the buffer after a complete receive run equals its
value at transaction start OR-ed with the MSB-first assembled payload;
the payload value alone comes out exactly when the caller zeroed the
buffer beforehand. -/
theorem c10_or_accumulation (bytes : List Nat) (sm : I2CSm)
    (hst : sm.curr_state = I2CState.data_rx)
    (hn : sm.num_bytes = bytes.length)
    (hw : bytes.length < UINT32_MOD)
    (hpos : 1 ≤ bytes.length) :
    (rxFinal bytes sm).data = sm.data ||| msbPayload bytes ∧
    (sm.data = 0 → (rxFinal bytes sm).data = msbPayload bytes) := by
  obtain ⟨_, _, _, _, hd, _⟩ := rxRun_all bytes sm hst hn hw hpos
  refine ⟨hd, fun hz => ?_⟩
  rw [hd, hz, Nat.zero_or]

/-- Witness for C10 on the concrete two-byte run 0xAB, 0x12 into a zeroed
buffer. -/
theorem c10_or_accumulation_witness :
    (rxFinal [0xAB, 0x12] rxDesc).data =
      rxDesc.data ||| msbPayload [0xAB, 0x12] ∧
    (rxDesc.data = 0 →
      (rxFinal [0xAB, 0x12] rxDesc).data = msbPayload [0xAB, 0x12]) :=
  c10_or_accumulation [0xAB, 0x12] rxDesc rfl rfl (by decide) (by decide)

end I2CLab
